import Mathlib

/-!
Verification of the tariff insurance service.

The service (app/services.py, app/endpoints.py, app/main.py) stores tariff
records (cargo_type, rate, effective_date), resolves the most recent rate as
of a date, multiplies it by a declared value, and ingests payloads of the
shape { "YYYY-MM-DD": [ {"cargo_type": ..., "rate": ...}, ... ], ... }.

Python floats are modelled as rationals; Python float division is partial
(division by zero raises ZeroDivisionError).  Errors raised by the Python
code are modelled with an explicit `PyError` type; `datetime.strptime` with
format "%Y-%m-%d" is modelled by `strptimeDate`.
-/

/-- A calendar date as produced by `datetime.strptime(s, "%Y-%m-%d").date()`. -/
structure PDate where
  year : Nat
  month : Nat
  day : Nat
deriving DecidableEq, Repr

/-- Calendar order on dates (lexicographic on year, month, day), as a Bool,
mirroring the comparison `Tariff.effective_date <= effective_date` the SQL
query performs on `Date` columns. -/
def PDate.ble (a b : PDate) : Bool :=
  if a.year < b.year then true
  else if b.year < a.year then false
  else if a.month < b.month then true
  else if b.month < a.month then false
  else decide (a.day ≤ b.day)

theorem PDate.ble_iff (a b : PDate) : PDate.ble a b = true ↔
    (a.year < b.year ∨ (a.year = b.year ∧
      (a.month < b.month ∨ (a.month = b.month ∧ a.day ≤ b.day)))) := by
  unfold PDate.ble
  split_ifs <;> simp <;> omega

theorem PDate.ble_refl (a : PDate) : PDate.ble a a = true := by
  rw [PDate.ble_iff]; omega

theorem PDate.ble_total (a b : PDate) :
    PDate.ble a b = true ∨ PDate.ble b a = true := by
  rw [PDate.ble_iff, PDate.ble_iff]; omega

theorem PDate.ble_trans {a b c : PDate} (hab : PDate.ble a b = true)
    (hbc : PDate.ble b c = true) : PDate.ble a c = true := by
  rw [PDate.ble_iff] at hab hbc ⊢; omega

/-- A row of the `tariffs` table (app/models.py).  The auto-assigned `id`
primary key is not modelled; a store is a list of rows and a row's identity
is its position. -/
structure Tariff where
  cargo_type : String
  rate : ℚ
  effective_date : PDate
deriving DecidableEq, Repr

/-- One step of taking the row with the latest `effective_date`
(`ORDER BY effective_date DESC LIMIT 1`).  On ties the accumulated row is
kept; the claim proved about the lookup does not depend on the tie-break,
which SQL leaves unspecified. -/
def pickLater (acc : Option Tariff) (t : Tariff) : Option Tariff :=
  match acc with
  | none => some t
  | some b => if PDate.ble t.effective_date b.effective_date then some b else some t

/-- The query of `get_rate_for_date_and_cargo` (app/services.py): filter rows
with matching `cargo_type` and `effective_date <= effective_date`, order by
`effective_date` descending, and take the first row, or `none` if the
filtered set is empty. -/
def findLatestAsOf (store : List Tariff) (cargo_type : String) (d : PDate) :
    Option Tariff :=
  (store.filter fun t =>
    t.cargo_type == cargo_type && PDate.ble t.effective_date d).foldl pickLater none

theorem pickLater_isSome (acc : Option Tariff) (t : Tariff) :
    ∃ u, pickLater acc t = some u := by
  cases acc with
  | none => exact ⟨t, rfl⟩
  | some b =>
    by_cases h : PDate.ble t.effective_date b.effective_date = true
    · exact ⟨b, by simp [pickLater, h]⟩
    · exact ⟨t, by simp [pickLater, h]⟩

theorem foldl_pickLater_eq_none_iff (l : List Tariff) (acc : Option Tariff) :
    l.foldl pickLater acc = none ↔ acc = none ∧ l = [] := by
  induction l generalizing acc with
  | nil => simp
  | cons x rest ih =>
    simp only [List.foldl_cons, ih]
    constructor
    · rintro ⟨h1, -⟩
      obtain ⟨u, hu⟩ := pickLater_isSome acc x
      rw [hu] at h1
      exact absurd h1 (by simp)
    · rintro ⟨-, h⟩
      exact absurd h (by simp)

theorem foldl_pickLater_spec (l : List Tariff) (acc : Option Tariff) (t : Tariff)
    (h : l.foldl pickLater acc = some t) :
    (acc = some t ∨ t ∈ l) ∧
    (∀ b, acc = some b → PDate.ble b.effective_date t.effective_date = true) ∧
    (∀ u ∈ l, PDate.ble u.effective_date t.effective_date = true) := by
  induction l generalizing acc with
  | nil =>
    simp only [List.foldl_nil] at h
    refine ⟨Or.inl h, ?_, ?_⟩
    · intro b hb
      rw [h] at hb
      cases hb
      exact PDate.ble_refl _
    · intro u hu
      exact absurd hu (by simp)
  | cons x rest ih =>
    simp only [List.foldl_cons] at h
    cases acc with
    | none =>
      obtain ⟨hmem, hacc, hrest⟩ := ih (some x) (by simpa [pickLater] using h)
      have hx_le_t : PDate.ble x.effective_date t.effective_date = true :=
        hacc x rfl
      refine ⟨?_, ?_, ?_⟩
      · rcases hmem with hm | hm
        · cases hm
          exact Or.inr (List.mem_cons_self _ _)
        · exact Or.inr (List.mem_cons_of_mem _ hm)
      · intro b hb
        exact absurd hb (by simp)
      · intro v hv
        rcases List.mem_cons.mp hv with hv | hv
        · subst hv
          exact hx_le_t
        · exact hrest v hv
    | some b =>
      by_cases hcmp : PDate.ble x.effective_date b.effective_date = true
      · obtain ⟨hmem, hacc, hrest⟩ := ih (some b) (by simpa [pickLater, hcmp] using h)
        have hb_le_t : PDate.ble b.effective_date t.effective_date = true :=
          hacc b rfl
        refine ⟨?_, ?_, ?_⟩
        · rcases hmem with hm | hm
          · exact Or.inl hm
          · exact Or.inr (List.mem_cons_of_mem _ hm)
        · intro b0 hb0
          cases hb0
          exact hb_le_t
        · intro v hv
          rcases List.mem_cons.mp hv with hv | hv
          · subst hv
            exact PDate.ble_trans hcmp hb_le_t
          · exact hrest v hv
      · obtain ⟨hmem, hacc, hrest⟩ := ih (some x) (by simpa [pickLater, hcmp] using h)
        have hx_le_t : PDate.ble x.effective_date t.effective_date = true :=
          hacc x rfl
        have hb_le_x : PDate.ble b.effective_date x.effective_date = true := by
          rcases PDate.ble_total b.effective_date x.effective_date with h' | h'
          · exact h'
          · exact absurd h' hcmp
        refine ⟨?_, ?_, ?_⟩
        · rcases hmem with hm | hm
          · cases hm
            exact Or.inr (List.mem_cons_self _ _)
          · exact Or.inr (List.mem_cons_of_mem _ hm)
        · intro b0 hb0
          cases hb0
          exact PDate.ble_trans hb_le_x hx_le_t
        · intro v hv
          rcases List.mem_cons.mp hv with hv | hv
          · subst hv
            exact hx_le_t
          · exact hrest v hv

/-- Errors raised by the Python code.  `datetime.strptime` and a failed
`float(str)` raise `ValueError` (so does the explicit raise in
`calculate_insurance_cost`); a missing dictionary key raises `KeyError`;
`float(None)` raises `TypeError`. -/
inductive PyError where
  | valueError (msg : String)
  | typeError (msg : String)
  | keyError (msg : String)
deriving DecidableEq, Repr

/-- True for an ASCII decimal digit. -/
def isDigitChar (c : Char) : Bool :=
  decide (48 ≤ c.toNat) && decide (c.toNat ≤ 57)

/-- Numeric value of a list of digit characters. -/
def digitsVal (cs : List Char) : Nat :=
  cs.foldl (fun a c => 10 * a + (c.toNat - 48)) 0

/-- Some of the numeric value when the list is a nonempty run of digits,
none otherwise. -/
def digitsVal? (cs : List Char) : Option Nat :=
  if cs.isEmpty || !cs.all isDigitChar then none
  else some (digitsVal cs)

/-- Split a character list on a separator character, like `str.split(sep)`
for a one-character separator: `splitSep '-' "a--b"` gives `["a","","b"]`. -/
def splitSep (sep : Char) : List Char → List (List Char)
  | [] => [[]]
  | c :: rest =>
    match splitSep sep rest with
    | [] => if c = sep then [[], [c]] else [[c]]
    | g :: gs => if c = sep then [] :: g :: gs else (c :: g) :: gs

/-- Leap years (366 days) of the proleptic Gregorian calendar used by
`datetime.date`. -/
def leapYear (y : Nat) : Bool :=
  decide (y % 4 = 0) && (decide (y % 100 ≠ 0) || decide (y % 400 = 0))

/-- Length of a month as validated by the `datetime.date` constructor. -/
def daysInMonth (y m : Nat) : Nat :=
  if m = 2 then (if leapYear y then 29 else 28)
  else if m = 4 ∨ m = 6 ∨ m = 9 ∨ m = 11 then 30
  else 31

/-- Model of `datetime.strptime(s, "%Y-%m-%d").date()`: `%Y` matches exactly four
digits, `%m` one or two digits valued 1..12, `%d` one or two digits valued
1..31, separated by literal dashes with no surrounding text; the resulting
`datetime.date` additionally requires year ≥ 1 and the day to exist in the
month.  `none` models the `ValueError` raised on any mismatch. -/
def strptimeDate (s : String) : Option PDate :=
  match splitSep (Char.ofNat 45) s.toList with
  | [ys, ms, ds] =>
    match digitsVal? ys, digitsVal? ms, digitsVal? ds with
    | some y, some m, some d =>
      if ys.length = 4 ∧ 1 ≤ y ∧ ms.length ≤ 2 ∧ 1 ≤ m ∧ m ≤ 12 ∧
          ds.length ≤ 2 ∧ 1 ≤ d ∧ d ≤ daysInMonth y m then
        some ⟨y, m, d⟩
      else none
    | _, _, _ => none
  | _ => none

/-- A JSON value that can appear in the `"rate"` field of an ingestion
payload entry: a number, a string, or null. -/
inductive JsonVal where
  | num (q : ℚ)
  | str (s : String)
  | null
deriving DecidableEq, Repr

/-- Decimal literal accepted by Python `float(str)`: optional sign, then
digits with an optional fractional part (at least one digit overall), as in
"3", "-0.25", "5.", ".5". -/
def parseFloatLit (cs0 : List Char) : Option ℚ :=
  let signed : Bool × List Char :=
    match cs0 with
    | c :: rest => if c = Char.ofNat 45 then (true, rest)
                   else if c = Char.ofNat 43 then (false, rest)
                   else (false, cs0)
    | [] => (false, [])
  match splitSep (Char.ofNat 46) signed.2 with
  | [ip] =>
    match digitsVal? ip with
    | some n => some (if signed.1 then -(n : ℚ) else (n : ℚ))
    | none => none
  | [ip, fp] =>
    if (ip.isEmpty && fp.isEmpty) || !ip.all isDigitChar || !fp.all isDigitChar then
      none
    else
      let v : ℚ := (digitsVal ip : ℚ) + (digitsVal fp : ℚ) / ((10 : ℚ) ^ fp.length)
      some (if signed.1 then -v else v)
  | _ => none

/-- Python `float(x)` applied to a JSON value, as used on `item["rate"]`:
a number converts to itself, a string is parsed as a float literal
(`ValueError` on failure), `None` raises `TypeError`. -/
def pyFloat : JsonVal → Except PyError ℚ
  | JsonVal.num q => Except.ok q
  | JsonVal.str s =>
    match parseFloatLit s.toList with
    | some q => Except.ok q
    | none => Except.error (PyError.valueError "could not convert string to float")
  | JsonVal.null =>
    Except.error (PyError.typeError "float() argument must be a string or a real number, not NoneType")

/-- One entry of an ingestion payload list: a JSON object whose
`"cargo_type"` field, when present, is a string (the payload shape of the
spec), and whose `"rate"` field, when present, is an arbitrary JSON value
passed to `float`.  `none` fields model a missing key (`KeyError` on
subscripting). -/
structure Item where
  cargo_type : Option String
  rate : Option JsonVal
deriving DecidableEq, Repr

/-- Model of `TariffCreate(cargo_type=item["cargo_type"], rate=float(item["rate"]),
effective_date=d)` for one payload entry: missing keys raise `KeyError`,
`float` may raise, otherwise the record is built. -/
def itemParse (d : PDate) (it : Item) : Except PyError Tariff :=
  match it.cargo_type with
  | none => Except.error (PyError.keyError "cargo_type")
  | some c =>
    match it.rate with
    | none => Except.error (PyError.keyError "rate")
    | some v =>
      match pyFloat v with
      | Except.error e => Except.error e
      | Except.ok r => Except.ok ⟨c, r, d⟩

/-- The inner loop of `upload_tariffs` for one date group: build a record
per entry, stopping at the first raised error. -/
def parseItems (d : PDate) : List Item → Except PyError (List Tariff)
  | [] => Except.ok []
  | it :: rest =>
    match itemParse d it with
    | Except.error e => Except.error e
    | Except.ok t =>
      match parseItems d rest with
      | Except.error e => Except.error e
      | Except.ok ts => Except.ok (t :: ts)

/-- The parsing loop of `upload_tariffs` (app/endpoints.py): for each date
key in order, parse the date with `strptime`, then build one record per
entry; the `tariffs` list accumulates across all date groups.  Any raised
error aborts the whole loop before any record is handed to the session. -/
def parsePayload : List (String × List Item) → Except PyError (List Tariff)
  | [] => Except.ok []
  | (date_str, rate_data) :: rest =>
    match strptimeDate date_str with
    | none => Except.error (PyError.valueError "time data does not match format %Y-%m-%d")
    | some effective_date =>
      match parseItems effective_date rate_data with
      | Except.error e => Except.error e
      | Except.ok ts =>
        match parsePayload rest with
        | Except.error e => Except.error e
        | Except.ok rs => Except.ok (ts ++ rs)

/-- Model of `get_rate_for_date_and_cargo` (app/services.py): parse the date string
with `strptime` (raising `ValueError` on failure), then run the
latest-as-of query.  A missing rate is `Except.ok none`, not an error. -/
def get_rate_for_date_and_cargo (store : List Tariff) (cargo_type : String)
    (date : String) : Except PyError (Option Tariff) :=
  match strptimeDate date with
  | none => Except.error (PyError.valueError "time data does not match format %Y-%m-%d")
  | some effective_date => Except.ok (findLatestAsOf store cargo_type effective_date)

/-- Model of `calculate_insurance_cost` (app/services.py): look the tariff up,
raise `ValueError` when no tariff is found, otherwise return
`declared_value * tariff.rate`. -/
def calculate_insurance_cost (store : List Tariff) (cargo_type : String)
    (declared_value : ℚ) (date : String) : Except PyError ℚ :=
  match get_rate_for_date_and_cargo store cargo_type date with
  | Except.error e => Except.error e
  | Except.ok none => Except.error (PyError.valueError "Rate not found for this cargo type and date")
  | Except.ok (some tariff) => Except.ok (declared_value * tariff.rate)

/-- Python float division, partial at zero (`ZeroDivisionError`). -/
def pyDiv (a b : ℚ) : Option ℚ :=
  if b = 0 then none else some (a / b)

/-- Request body of `POST /calculate_insurance/` (app/schemas.py). -/
structure InsuranceCalculationRequest where
  cargo_type : String
  declared_value : ℚ
  date : String
deriving DecidableEq, Repr

/-- Response body of `POST /calculate_insurance/` (app/schemas.py). -/
structure InsuranceCalculationResponse where
  insurance_cost : ℚ
  cargo_type : String
  rate : ℚ
  date : String
deriving DecidableEq, Repr

/-- Outcome of one `POST /calculate_insurance/` call: a 200 body, a 404
with its `detail` string, or an unhandled exception (HTTP 500). -/
inductive HttpResponse where
  | ok (body : InsuranceCalculationResponse)
  | notFound (detail : String)
  | serverError
deriving DecidableEq, Repr

/-- The `calculate_insurance` endpoint (app/endpoints.py).  Only the
`calculate_insurance_cost` call sits inside `try/except ValueError`; the
response construction divides `insurance_cost` by `request.declared_value`
to echo the rate, and a `ZeroDivisionError` there is unhandled.  The
endpoint never writes, so the store is returned unchanged. -/
def calculate_insurance (store : List Tariff)
    (request : InsuranceCalculationRequest) : HttpResponse × List Tariff :=
  match calculate_insurance_cost store request.cargo_type request.declared_value request.date with
  | Except.error (PyError.valueError _) =>
    (HttpResponse.notFound "Rate not found for this cargo type and date", store)
  | Except.error _ => (HttpResponse.serverError, store)
  | Except.ok insurance_cost =>
    match pyDiv insurance_cost request.declared_value with
    | none => (HttpResponse.serverError, store)
    | some rate =>
      (HttpResponse.ok ⟨insurance_cost, request.cargo_type, rate, request.date⟩, store)

/-- Outcome of one `POST /upload_tariffs/` call: the
`{"status": "success"}` body, or an exception aborting the request. -/
inductive UploadOutcome where
  | success
  | errorAbort (e : PyError)
deriving DecidableEq, Repr

/-- The `upload_tariffs` endpoint (app/endpoints.py).  The parsing loop
builds the whole `tariffs` list before any `session.add`, and one
`session.commit()` follows the add loop, so a parse error leaves the store
untouched and a successful parse appends every record. -/
def upload_tariffs (store : List Tariff) (data : List (String × List Item)) :
    UploadOutcome × List Tariff :=
  match parsePayload data with
  | Except.error e => (UploadOutcome.errorAbort e, store)
  | Except.ok tariffs => (UploadOutcome.success, store ++ tariffs)

/-- Body of `GET /healthcheck` (app/main.py). -/
structure StatusResponse where
  status : String
deriving DecidableEq, Repr

/-- The `healthcheck` endpoint (app/main.py): a constant body, no store
access. -/
def healthcheck (store : List Tariff) : StatusResponse × List Tariff :=
  (⟨"ok"⟩, store)

/-- The payload of the spec's round-trip scenario (also
`tests/conftest.py`): one date key "2020-06-01" with Glass at 0.05 and
Metal at 0.03. -/
def demoPayload : List (String × List Item) :=
  [("2020-06-01",
    [⟨some "Glass", some (JsonVal.num (5 / 100))⟩,
     ⟨some "Metal", some (JsonVal.num (3 / 100))⟩])]

/-- The store contents after ingesting `demoPayload` into an empty store. -/
def demoStore : List Tariff :=
  [⟨"Glass", 5 / 100, ⟨2020, 6, 1⟩⟩, ⟨"Metal", 3 / 100, ⟨2020, 6, 1⟩⟩]

example : strptimeDate "2020-06-01" = some ⟨2020, 6, 1⟩ := by decide
example : strptimeDate "not-a-date" = none := by decide
example : strptimeDate "2020-6-1" = some ⟨2020, 6, 1⟩ := by decide
example : strptimeDate "2020-02-30" = none := by decide
example : strptimeDate "" = none := by decide
example : upload_tariffs [] demoPayload = (UploadOutcome.success, demoStore) := rfl
example : findLatestAsOf demoStore "Glass" ⟨2020, 6, 1⟩ =
    some ⟨"Glass", 5 / 100, ⟨2020, 6, 1⟩⟩ := rfl

theorem findLatestAsOf_eq_none_iff (store : List Tariff) (c : String) (d : PDate) :
    findLatestAsOf store c d = none ↔
      ∀ u ∈ store, ¬(u.cargo_type = c ∧ PDate.ble u.effective_date d = true) := by
  unfold findLatestAsOf
  rw [foldl_pickLater_eq_none_iff]
  simp only [true_and, List.filter_eq_nil_iff, Bool.and_eq_true, beq_iff_eq, not_and]

/-- Claim C1: for every store, cargo type and query date, the lookup of
`get_rate_for_date_and_cargo` returns a stored record whose `cargo_type`
matches, whose `effective_date` is at most the query date and is maximal
among all stored records satisfying those two conditions, and returns
`none` exactly when no stored record satisfies them. -/
theorem findLatestAsOf_finds_latest (store : List Tariff) (c : String) (d : PDate) :
    (∀ t, findLatestAsOf store c d = some t →
      t ∈ store ∧ t.cargo_type = c ∧ PDate.ble t.effective_date d = true ∧
      ∀ u ∈ store, u.cargo_type = c → PDate.ble u.effective_date d = true →
        PDate.ble u.effective_date t.effective_date = true) ∧
    (findLatestAsOf store c d = none ↔
      ∀ u ∈ store, ¬(u.cargo_type = c ∧ PDate.ble u.effective_date d = true)) := by
  constructor
  · intro t ht
    unfold findLatestAsOf at ht
    obtain ⟨hmem, -, hdom⟩ := foldl_pickLater_spec _ none t ht
    rcases hmem with hm | hm
    · exact absurd hm (by simp)
    · obtain ⟨hstore, hpred⟩ := List.mem_filter.mp hm
      rw [Bool.and_eq_true, beq_iff_eq] at hpred
      refine ⟨hstore, hpred.1, hpred.2, ?_⟩
      intro u hu hc hle
      exact hdom u (List.mem_filter.mpr ⟨hu, by rw [Bool.and_eq_true, beq_iff_eq]; exact ⟨hc, hle⟩⟩)
  · exact findLatestAsOf_eq_none_iff store c d

theorem findLatestAsOf_finds_latest_witness :
    (⟨"Glass", 5 / 100, ⟨2020, 6, 1⟩⟩ : Tariff) ∈ demoStore ∧
    PDate.ble (⟨2020, 6, 1⟩ : PDate) ⟨2020, 6, 1⟩ = true := by
  have h := (findLatestAsOf_finds_latest demoStore "Glass" ⟨2020, 6, 1⟩).1
    ⟨"Glass", 5 / 100, ⟨2020, 6, 1⟩⟩ rfl
  exact ⟨h.1, h.2.2.1⟩

/-- Claim C5: when the request's date parses and no stored record has the
requested cargo type with effective date at most the requested date,
`POST /calculate_insurance/` answers 404 with detail
"Rate not found for this cargo type and date" and leaves the store
unchanged. -/
theorem calculate_insurance_not_found (store : List Tariff)
    (req : InsuranceCalculationRequest) (d : PDate)
    (hd : strptimeDate req.date = some d)
    (hnone : ∀ t ∈ store,
      ¬(t.cargo_type = req.cargo_type ∧ PDate.ble t.effective_date d = true)) :
    calculate_insurance store req =
      (HttpResponse.notFound "Rate not found for this cargo type and date", store) := by
  have hfind : findLatestAsOf store req.cargo_type d = none :=
    (findLatestAsOf_eq_none_iff _ _ _).mpr hnone
  simp only [calculate_insurance, calculate_insurance_cost,
    get_rate_for_date_and_cargo, hd, hfind]

theorem calculate_insurance_not_found_witness :
    calculate_insurance demoStore ⟨"Wood", 10000, "2020-06-01"⟩ =
      (HttpResponse.notFound "Rate not found for this cargo type and date", demoStore) :=
  calculate_insurance_not_found demoStore ⟨"Wood", 10000, "2020-06-01"⟩
    ⟨2020, 6, 1⟩ (by decide) (by decide)

/-- Claim C2 as amended: when the request's date parses, a tariff applies and the
declared value is nonzero, `POST /calculate_insurance/` answers 200 with
`insurance_cost` equal to the declared value times the resolved rate, the
`rate` field equal to the resolved rate, and the request's `cargo_type`
and `date` echoed; the store is unchanged.  (For a zero declared value the
rate echo divides by zero instead of succeeding.) -/
theorem calculate_insurance_ok (store : List Tariff)
    (req : InsuranceCalculationRequest) (d : PDate) (t : Tariff)
    (hd : strptimeDate req.date = some d)
    (ht : findLatestAsOf store req.cargo_type d = some t)
    (hv : req.declared_value ≠ 0) :
    calculate_insurance store req =
      (HttpResponse.ok
        ⟨req.declared_value * t.rate, req.cargo_type, t.rate, req.date⟩, store) := by
  simp only [calculate_insurance, calculate_insurance_cost,
    get_rate_for_date_and_cargo, hd, ht, pyDiv, if_neg hv]
  rw [mul_div_cancel_left₀ _ hv]

theorem calculate_insurance_ok_witness :
    calculate_insurance demoStore ⟨"Glass", 10000, "2020-06-01"⟩ =
      (HttpResponse.ok ⟨500, "Glass", 5 / 100, "2020-06-01"⟩, demoStore) := by
  have h := calculate_insurance_ok demoStore ⟨"Glass", 10000, "2020-06-01"⟩
    ⟨2020, 6, 1⟩ ⟨"Glass", 5 / 100, ⟨2020, 6, 1⟩⟩ (by decide) rfl (by norm_num)
  rw [h]
  norm_num

/-- Claim C2 counterexample: with an applicable tariff and declared value 0 the
endpoint does not return the 200 response the claim promises (the rate
echo raises ZeroDivisionError). -/
theorem calculate_insurance_zero_declared_counterexample :
    calculate_insurance demoStore ⟨"Glass", 0, "2020-06-01"⟩ ≠
      (HttpResponse.ok ⟨0 * (5 / 100), "Glass", 5 / 100, "2020-06-01"⟩, demoStore) := by
  have hcost : calculate_insurance_cost demoStore "Glass" 0 "2020-06-01" =
      Except.ok (0 * (5 / 100)) := rfl
  have h : calculate_insurance demoStore ⟨"Glass", 0, "2020-06-01"⟩ =
      (HttpResponse.serverError, demoStore) := by
    simp [calculate_insurance, hcost, pyDiv]
  rw [h]
  simp

/-- Claim C4: at the failing input declared_value = 0 with an applicable tariff,
the service-layer computation returns cost 0 without failing, but the
endpoint's response construction divides the cost by the declared value
and aborts with an unhandled ZeroDivisionError (HTTP 500) instead of
answering 200. -/
theorem zero_declared_value_crash :
    calculate_insurance_cost demoStore "Glass" 0 "2020-06-01" = Except.ok 0 ∧
    calculate_insurance demoStore ⟨"Glass", 0, "2020-06-01"⟩ =
      (HttpResponse.serverError, demoStore) := by
  have hcost : calculate_insurance_cost demoStore "Glass" 0 "2020-06-01" =
      Except.ok (0 * (5 / 100)) := rfl
  constructor
  · rw [hcost]
    norm_num
  · simp [calculate_insurance, hcost, pyDiv]

/-- Claim C3 counterexample: an unparseable date string still produces the
HTTP 404 "Rate not found for this cargo type and date" response, so that
response is not reserved for the case where the date parsed and the lookup
found nothing. -/
theorem invalid_date_rate_not_found_counterexample :
    strptimeDate "not-a-date" = none ∧
    calculate_insurance demoStore ⟨"Glass", 10000, "not-a-date"⟩ =
      (HttpResponse.notFound "Rate not found for this cargo type and date", demoStore) := by
  exact ⟨by decide, rfl⟩

/-- Claim C3 as amended: an unparseable date makes the rate resolution raise a
date-parse ValueError, whose message differs from the not-found message,
but the endpoint catches every ValueError alike, so the same HTTP 404
"Rate not found for this cargo type and date" is returned for unparseable
dates as for genuine lookup misses. -/
theorem invalid_date_routing (store : List Tariff)
    (req : InsuranceCalculationRequest) (h : strptimeDate req.date = none) :
    get_rate_for_date_and_cargo store req.cargo_type req.date =
      Except.error (PyError.valueError "time data does not match format %Y-%m-%d") ∧
    calculate_insurance store req =
      (HttpResponse.notFound "Rate not found for this cargo type and date", store) := by
  have hg : get_rate_for_date_and_cargo store req.cargo_type req.date =
      Except.error (PyError.valueError "time data does not match format %Y-%m-%d") := by
    simp only [get_rate_for_date_and_cargo, h]
  refine ⟨hg, ?_⟩
  simp only [calculate_insurance, calculate_insurance_cost, hg]

theorem invalid_date_routing_witness :
    calculate_insurance [] ⟨"Glass", 5, "nope"⟩ =
      (HttpResponse.notFound "Rate not found for this cargo type and date", []) :=
  (invalid_date_routing [] ⟨"Glass", 5, "nope"⟩ (by decide)).2

/-- True when `float(item["rate"])` would raise for this value. -/
def pyFloatFails (v : JsonVal) : Bool :=
  match pyFloat v with
  | Except.error _ => true
  | Except.ok _ => false

/-- True when building a record from this entry raises: the entry is
missing `cargo_type` or `rate`, or its rate cannot be converted to a
number. -/
def badItemB (it : Item) : Bool :=
  match it.cargo_type, it.rate with
  | none, _ => true
  | some _, none => true
  | some _, some v => pyFloatFails v

/-- True when ingesting this payload raises: some date key fails to parse
as YYYY-MM-DD, or some entry is bad. -/
def badPayloadB (data : List (String × List Item)) : Bool :=
  data.any fun g => (strptimeDate g.1).isNone || g.2.any badItemB

theorem itemParse_error_of_bad (d : PDate) (it : Item)
    (h : badItemB it = true) : ∃ e, itemParse d it = Except.error e := by
  cases hc : it.cargo_type with
  | none => exact ⟨PyError.keyError "cargo_type", by simp only [itemParse, hc]⟩
  | some c =>
    cases hr : it.rate with
    | none => exact ⟨PyError.keyError "rate", by simp only [itemParse, hc, hr]⟩
    | some v =>
      cases hf : pyFloat v with
      | error e => exact ⟨e, by simp only [itemParse, hc, hr, hf]⟩
      | ok r =>
        exfalso
        simp only [badItemB, hc, hr, pyFloatFails, hf] at h
        exact Bool.noConfusion h

theorem itemParse_ok_of_good (d : PDate) (it : Item)
    (h : badItemB it = false) : ∃ t, itemParse d it = Except.ok t := by
  cases hc : it.cargo_type with
  | none =>
    exfalso
    simp only [badItemB, hc] at h
    exact Bool.noConfusion h
  | some c =>
    cases hr : it.rate with
    | none =>
      exfalso
      simp only [badItemB, hc, hr] at h
      exact Bool.noConfusion h
    | some v =>
      cases hf : pyFloat v with
      | error e =>
        exfalso
        simp only [badItemB, hc, hr, pyFloatFails, hf] at h
        exact Bool.noConfusion h
      | ok r => exact ⟨⟨c, r, d⟩, by simp only [itemParse, hc, hr, hf]⟩

theorem parseItems_error_of_any_bad (d : PDate) (items : List Item)
    (h : items.any badItemB = true) :
    ∃ e, parseItems d items = Except.error e := by
  induction items with
  | nil => simp at h
  | cons it rest ih =>
    cases hb : badItemB it with
    | true =>
      obtain ⟨e, he⟩ := itemParse_error_of_bad d it hb
      exact ⟨e, by simp only [parseItems, he]⟩
    | false =>
      have hrest : rest.any badItemB = true := by
        rw [List.any_cons, hb, Bool.false_or] at h
        exact h
      obtain ⟨t, htp⟩ := itemParse_ok_of_good d it hb
      obtain ⟨e, he⟩ := ih hrest
      exact ⟨e, by simp only [parseItems, htp, he]⟩

theorem parseItems_ok_of_all_good (d : PDate) (items : List Item)
    (h : items.any badItemB = false) :
    ∃ ts, parseItems d items = Except.ok ts ∧
      ∀ it ∈ items, ∀ t, itemParse d it = Except.ok t → t ∈ ts := by
  induction items with
  | nil => exact ⟨[], rfl, by simp⟩
  | cons it rest ih =>
    rw [List.any_cons, Bool.or_eq_false_iff] at h
    obtain ⟨h1, h2⟩ := h
    obtain ⟨t, htp⟩ := itemParse_ok_of_good d it h1
    obtain ⟨ts, hts, hmem⟩ := ih h2
    refine ⟨t :: ts, by simp only [parseItems, htp, hts], ?_⟩
    intro it0 hit0 t0 ht0
    rcases List.mem_cons.mp hit0 with hh | hh
    · subst hh
      rw [htp] at ht0
      cases ht0
      exact List.mem_cons_self _ _
    · exact List.mem_cons_of_mem _ (hmem it0 hh t0 ht0)

theorem parsePayload_error_of_bad (data : List (String × List Item))
    (h : badPayloadB data = true) :
    ∃ e, parsePayload data = Except.error e := by
  induction data with
  | nil => simp [badPayloadB] at h
  | cons g rest ih =>
    obtain ⟨ds, items⟩ := g
    cases hsd : strptimeDate ds with
    | none =>
      exact ⟨PyError.valueError "time data does not match format %Y-%m-%d",
        by simp only [parsePayload, hsd]⟩
    | some d =>
      have h' : items.any badItemB = true ∨ badPayloadB rest = true := by
        simp only [badPayloadB, List.any_cons, Bool.or_eq_true, hsd,
          Option.isNone_some] at h
        rcases h with (h | h) | h
        · exact absurd h (by simp)
        · exact Or.inl h
        · exact Or.inr h
      rcases h' with h' | h'
      · obtain ⟨e, he⟩ := parseItems_error_of_any_bad d items h'
        exact ⟨e, by simp only [parsePayload, hsd, he]⟩
      · obtain ⟨e, he⟩ := ih h'
        cases hpi : parseItems d items with
        | error e2 => exact ⟨e2, by simp only [parsePayload, hsd, hpi]⟩
        | ok ts => exact ⟨e, by simp only [parsePayload, hsd, hpi, he]⟩

theorem parsePayload_ok_of_good (data : List (String × List Item))
    (h : badPayloadB data = false) :
    ∃ ts, parsePayload data = Except.ok ts ∧
      ∀ g ∈ data, ∀ d, strptimeDate g.1 = some d →
        ∀ it ∈ g.2, ∀ t, itemParse d it = Except.ok t → t ∈ ts := by
  induction data with
  | nil => exact ⟨[], rfl, by simp⟩
  | cons g rest ih =>
    obtain ⟨ds, items⟩ := g
    simp only [badPayloadB, List.any_cons, Bool.or_eq_false_iff] at h
    obtain ⟨⟨hsd', hitems⟩, hrest⟩ := h
    cases hsd : strptimeDate ds with
    | none =>
      rw [hsd] at hsd'
      simp at hsd'
    | some d =>
      obtain ⟨ts1, hts1, hmem1⟩ := parseItems_ok_of_all_good d items hitems
      obtain ⟨ts2, hts2, hmem2⟩ := ih hrest
      refine ⟨ts1 ++ ts2, by simp only [parsePayload, hsd, hts1, hts2], ?_⟩
      intro g0 hg0 d0 hd0 it0 hit0 t0 ht0
      rcases List.mem_cons.mp hg0 with hh | hh
      · subst hh
        have hd0' : strptimeDate ds = some d0 := hd0
        rw [hsd] at hd0'
        injection hd0' with hd0'
        subst hd0'
        have hit0' : it0 ∈ items := hit0
        exact List.mem_append_left _ (hmem1 it0 hit0' t0 ht0)
      · exact List.mem_append_right _ (hmem2 g0 hh d0 hd0 it0 hit0 t0 ht0)

/-- Claim C6: ingestion of one payload is all-or-nothing.  If any date key fails
to parse as YYYY-MM-DD, or any entry is missing cargo_type or rate, or any
rate cannot be converted to a number, the upload aborts with an error and
no record from the payload is persisted; otherwise it succeeds and every
record built from the payload is persisted. -/
theorem upload_tariffs_atomic (store : List Tariff)
    (data : List (String × List Item)) :
    (badPayloadB data = true →
      ∃ e, upload_tariffs store data = (UploadOutcome.errorAbort e, store)) ∧
    (badPayloadB data = false →
      (upload_tariffs store data).1 = UploadOutcome.success ∧
      ∀ g ∈ data, ∀ d, strptimeDate g.1 = some d →
        ∀ it ∈ g.2, ∀ t, itemParse d it = Except.ok t →
          t ∈ (upload_tariffs store data).2) := by
  constructor
  · intro h
    obtain ⟨e, he⟩ := parsePayload_error_of_bad data h
    exact ⟨e, by simp only [upload_tariffs, he]⟩
  · intro h
    obtain ⟨ts, hts, hmem⟩ := parsePayload_ok_of_good data h
    constructor
    · simp only [upload_tariffs, hts]
    · intro g hg d hd it hit t ht
      simp only [upload_tariffs, hts]
      exact List.mem_append_right _ (hmem g hg d hd it hit t ht)

theorem upload_tariffs_atomic_witness :
    ∃ e, upload_tariffs [] [("2020-06-01", [⟨none, none⟩])] =
      (UploadOutcome.errorAbort e, []) :=
  (upload_tariffs_atomic [] [("2020-06-01", [⟨none, none⟩])]).1 (by decide)

/-- Claim C7: ingesting the round-trip payload into an empty store succeeds, and
resolving cargo type "Glass" at date "2020-06-01" on the resulting store
yields the rate 0.05. -/
theorem ingestion_lookup_round_trip :
    (upload_tariffs [] demoPayload).1 = UploadOutcome.success ∧
    Except.map (Option.map Tariff.rate)
      (get_rate_for_date_and_cargo (upload_tariffs [] demoPayload).2
        "Glass" "2020-06-01") = Except.ok (some (5 / 100)) :=
  ⟨rfl, rfl⟩

/-- Claim C8: the cost computation `declared_value * tariff.rate` is linear in
the declared value: doubling the declared value doubles the computed cost,
whatever the store, cargo type and date. -/
theorem calculate_insurance_cost_linear (store : List Tariff)
    (cargo_type date : String) (v : ℚ) :
    calculate_insurance_cost store cargo_type (2 * v) date =
      Except.map (fun x => 2 * x) (calculate_insurance_cost store cargo_type v date) := by
  unfold calculate_insurance_cost
  cases h : get_rate_for_date_and_cargo store cargo_type date with
  | error e => simp [Except.map]
  | ok o =>
    cases o with
    | none => simp [Except.map]
    | some t =>
      simp only [Except.map, Except.ok.injEq]
      ring

/-- Claim C9: no exposed operation modifies or deletes an existing record:
`upload_tariffs` only appends (even on failure, when it appends nothing),
every record present before an upload is present afterwards,
`calculate_insurance` returns the store unchanged on every path, and
`healthcheck` does not touch the store. -/
theorem store_records_immutable (store : List Tariff) :
    (∀ data, ∃ ts, (upload_tariffs store data).2 = store ++ ts) ∧
    (∀ data, ∀ t, t ∈ store → t ∈ (upload_tariffs store data).2) ∧
    (∀ req, (calculate_insurance store req).2 = store) ∧
    (healthcheck store).2 = store := by
  have hup : ∀ data, ∃ ts, (upload_tariffs store data).2 = store ++ ts := by
    intro data
    cases h : parsePayload data with
    | error e => exact ⟨[], by simp only [upload_tariffs, h, List.append_nil]⟩
    | ok ts => exact ⟨ts, by simp only [upload_tariffs, h]⟩
  refine ⟨hup, ?_, ?_, rfl⟩
  · intro data t ht
    obtain ⟨ts, hts⟩ := hup data
    rw [hts]
    exact List.mem_append_left _ ht
  · intro req
    cases h : calculate_insurance_cost store req.cargo_type req.declared_value req.date with
    | error e => cases e <;> simp [calculate_insurance, h]
    | ok c =>
      cases h2 : pyDiv c req.declared_value with
      | none => simp [calculate_insurance, h, h2]
      | some r => simp [calculate_insurance, h, h2]

theorem store_records_immutable_witness :
    (⟨"Glass", 5 / 100, ⟨2020, 6, 1⟩⟩ : Tariff) ∈ (upload_tariffs demoStore demoPayload).2 :=
  (store_records_immutable demoStore).2.1 demoPayload
    ⟨"Glass", 5 / 100, ⟨2020, 6, 1⟩⟩ (List.mem_cons_self _ _)

/-- Claim C10 counterexample: a payload whose only date key maps to an empty
list still fails when that key does not parse as YYYY-MM-DD, because the
key is parsed before the (empty) entry list is visited. -/
theorem upload_bad_key_empty_list_counterexample :
    (upload_tariffs [] [("bad-key", ([] : List Item))]).1 ≠ UploadOutcome.success := by
  decide

/-- Claim C10 as amended: uploading the empty payload succeeds and inserts no
record, and a payload whose date keys all parse as YYYY-MM-DD and all map
to empty lists succeeds and leaves the store unchanged (a key that does
not parse still fails, even with an empty list). -/
theorem upload_empty_groups_ok (store : List Tariff) :
    upload_tariffs store [] = (UploadOutcome.success, store) ∧
    ∀ data : List (String × List Item),
      (∀ g ∈ data, (strptimeDate g.1).isSome = true ∧ g.2 = []) →
      upload_tariffs store data = (UploadOutcome.success, store) := by
  have hparse : ∀ data : List (String × List Item),
      (∀ g ∈ data, (strptimeDate g.1).isSome = true ∧ g.2 = []) →
      parsePayload data = Except.ok [] := by
    intro data
    induction data with
    | nil => intro _; rfl
    | cons g rest ih =>
      intro h
      obtain ⟨hg1, hg2⟩ := h g (List.mem_cons_self _ _)
      obtain ⟨d, hd⟩ := Option.isSome_iff_exists.mp hg1
      have hrest := ih (fun g0 hg0 => h g0 (List.mem_cons_of_mem _ hg0))
      obtain ⟨ds, items⟩ := g
      have hd' : strptimeDate ds = some d := hd
      have hitems : items = [] := hg2
      subst hitems
      simp only [parsePayload, hd', parseItems, hrest]
      rfl
  constructor
  · simp only [upload_tariffs, parsePayload, List.append_nil]
  · intro data h
    simp only [upload_tariffs, hparse data h, List.append_nil]

theorem upload_empty_groups_ok_witness :
    upload_tariffs demoStore [("2020-06-01", ([] : List Item))] =
      (UploadOutcome.success, demoStore) :=
  (upload_empty_groups_ok demoStore).2 [("2020-06-01", [])] (by decide)
